import Mathlib

/-!
Verification development for the vocabulary-learning app's two algorithmic
components: the SM-2 spaced-repetition scheduler and the OCR word-pair
extractor.  JavaScript numbers are modelled as exact rationals (ℚ),
timestamps in milliseconds as rationals, and strings as `String` /
`List Char`.  `Math.round` is `jsRound` (round half toward +∞), and
`Math.floor` of a rational is `Int.floor`.
-/

namespace Vocab

/-- JavaScript `Math.round`: rounds half toward positive infinity. -/
def jsRound (x : ℚ) : ℤ := ⌊x + 1/2⌋

/-- User-facing ratings of the app (type `UserRating` in `types/index.ts`). -/
inductive UserRating where
  | again
  | hard
  | good
  | easy
  deriving DecidableEq, Repr

/-- `ratingToQuality`: maps user-friendly ratings to SM-2 quality scores. -/
def ratingToQuality : UserRating → ℕ
  | .again => 0
  | .hard => 2
  | .good => 4
  | .easy => 5

/-- The scheduler-relevant fields of the `Word` record (the SM-2 fields and
review statistics; identifier and text fields are irrelevant to scheduling). -/
structure Word where
  easeFactor : ℚ
  interval : ℚ
  repetitions : ℕ
  nextReview : ℚ
  lastReview : Option ℚ
  timesCorrect : ℕ
  timesIncorrect : ℕ
  deriving DecidableEq, Repr

/-- `calculateNextReview` (SM-2 transition).  `now` is the value of
`Date.now()` at the review instant, in milliseconds. -/
def calculateNextReview (word : Word) (rating : UserRating) (now : ℚ) : Word :=
  let quality := ratingToQuality rating
  let repetitions := if quality < 3 then 0 else word.repetitions + 1
  let interval : ℚ :=
    if quality < 3 then 1
    else if word.repetitions = 0 then 1
    else if word.repetitions = 1 then 6
    else (jsRound (word.interval * word.easeFactor) : ℚ)
  let ef := word.easeFactor +
    (0.1 - (5 - (quality : ℚ)) * (0.08 + (5 - (quality : ℚ)) * 0.02))
  let easeFactor := if ef < 1.3 then 1.3 else ef
  let nextReview := now + interval * 24 * 60 * 60 * 1000
  let timesCorrect := if 3 ≤ quality then word.timesCorrect + 1 else word.timesCorrect
  let timesIncorrect := if quality < 3 then word.timesIncorrect + 1 else word.timesIncorrect
  { easeFactor := easeFactor
    interval := interval
    repetitions := repetitions
    nextReview := nextReview
    lastReview := some now
    timesCorrect := timesCorrect
    timesIncorrect := timesIncorrect }

/-- `getDefaultSM2Values`: default state for a new word. -/
def getDefaultSM2Values (now : ℚ) : Word :=
  { easeFactor := 2.5
    interval := 0
    repetitions := 0
    nextReview := now
    lastReview := none
    timesCorrect := 0
    timesIncorrect := 0 }

/-- `getNextReviewText`: human-readable next-review text (Dutch unit words). -/
def getNextReviewText (nextReview : ℚ) (now : ℚ) : String :=
  let diff := nextReview - now
  if diff ≤ 0 then "Nu"
  else
    let minutes := ⌊diff / (1000 * 60)⌋
    let hours := ⌊diff / (1000 * 60 * 60)⌋
    let days := ⌊diff / (1000 * 60 * 60 * 24)⌋
    if 0 < days then toString days ++ " dag" ++ (if 1 < days then "en" else "")
    else if 0 < hours then toString hours ++ " uur"
    else if 0 < minutes then toString minutes ++ " min"
    else "Nu"

/-- `calculateMastery`: mastery level (0-100). -/
def calculateMastery (word : Word) : ℤ :=
  if word.timesCorrect + word.timesIncorrect = 0 then 0
  else
    let accuracy : ℚ :=
      (word.timesCorrect : ℚ) / ((word.timesCorrect : ℚ) + (word.timesIncorrect : ℚ))
    let repetitionBonus := min ((word.repetitions : ℚ) / 5) 1
    let intervalBonus := min (word.interval / 30) 1
    jsRound ((accuracy * 0.5 + repetitionBonus * 0.25 + intervalBonus * 0.25) * 100)

/-- Iterated application of `calculateNextReview` with rating `again`:
`againSeq w nows k` is the state after `k` consecutive `again` reviews of the
initial state `w`, where `nows j` is the instant of the `(j+1)`-st review. -/
def againSeq (w : Word) (nows : ℕ → ℚ) : ℕ → Word
  | 0 => w
  | k + 1 => calculateNextReview (againSeq w nows k) UserRating.again (nows k)

/-- The three successive states produced by rating `good` three times starting
from the default state created at `t0`, reviewed at instants `t1`, `t2`, `t3`. -/
def threeGood (t0 t1 t2 t3 : ℚ) : Word × Word × Word :=
  let w1 := calculateNextReview (getDefaultSM2Values t0) UserRating.good t1
  let w2 := calculateNextReview w1 UserRating.good t2
  let w3 := calculateNextReview w2 UserRating.good t3
  (w1, w2, w3)

/-!
### Extractor: string machinery

JavaScript strings are modelled as `List Char`.  Each regular-expression
separator pattern of the source is modelled by a matcher returning the length
of its (greedy) match at the start of the list, or `none` when the pattern
does not match there; the patterns at hand are simple enough that greedy
matching with backtracking reduces to maximal-run scanning.
`String.prototype.split` on such a pattern is `splitOn`, which consumes
leftmost matches; `RegExp.test` is `testMatcher`.
-/

/-- The JavaScript whitespace class `\s` (also used by `trim`). -/
def isJsWs (c : Char) : Bool :=
  let n := c.toNat
  n == 32 || n == 9 || n == 10 || n == 11 || n == 12 || n == 13 ||
  n == 0xa0 || n == 0x1680 || (decide (0x2000 ≤ n) && decide (n ≤ 0x200a)) ||
  n == 0x2028 || n == 0x2029 || n == 0x202f || n == 0x205f || n == 0x3000 ||
  n == 0xfeff

/-- The dash characters `[-–—]` used by the separator patterns. -/
def isDashChar (c : Char) : Bool :=
  c == '-' || c == '–' || c == '—'

/-- JavaScript line terminators (the characters `.` does not match). -/
def isLineTerm (c : Char) : Bool :=
  let n := c.toNat
  n == 10 || n == 13 || n == 0x2028 || n == 0x2029

/-- Length of the maximal whitespace run at the head of the list. -/
def wsRun (l : List Char) : ℕ := (l.takeWhile isJsWs).length

/-- Matcher for `/\s+[-–—]\s+/` (dashes with spaces): a nonempty whitespace
run, a dash, a nonempty whitespace run. -/
def matchWsDashWs (l : List Char) : Option ℕ :=
  let k := wsRun l
  if k == 0 then none
  else
    match l.drop k with
    | [] => none
    | c :: rest =>
      if isDashChar c then
        let m := wsRun rest
        if m == 0 then none else some (k + 1 + m)
      else none

/-- Matcher for `/\s*c\s*/` with `c` drawn from the class `p` (the bare-dash,
equals, colon and pipe separator patterns). -/
def matchWsCharWs (p : Char → Bool) (l : List Char) : Option ℕ :=
  let k := wsRun l
  match l.drop k with
  | [] => none
  | c :: rest => if p c then some (k + 1 + wsRun rest) else none

/-- Matcher for `/\t+/`. -/
def matchTabs (l : List Char) : Option ℕ :=
  let k := (l.takeWhile (fun c => c == '\t')).length
  if k == 0 then none else some k

/-- Matcher for `/\s{n,}/`. -/
def matchWsAtLeast (n : ℕ) (l : List Char) : Option ℕ :=
  let k := wsRun l
  if decide (n ≤ k) then some k else none

/-- JavaScript `RegExp.test`: does the pattern match at some position? -/
def testMatcher (m : List Char → Option ℕ) : List Char → Bool
  | [] => (m []).isSome
  | c :: rest => (m (c :: rest)).isSome || testMatcher m rest

/-- Worker for `splitOn`.  `fuel` bounds the recursion depth; it starts at
the string length and every step consumes at least one character (all source
patterns match at least one character), so the `fuel = 0` fallback is never
reached from `splitOn`. -/
def splitOnFuel (m : List Char → Option ℕ) :
    ℕ → List Char → List Char → List (List Char)
  | _, cur, [] => [cur.reverse]
  | 0, cur, l => [cur.reverse ++ l]
  | fuel + 1, cur, c :: rest =>
    match m (c :: rest) with
    | some n => cur.reverse :: splitOnFuel m fuel [] (rest.drop (n - 1))
    | none => splitOnFuel m fuel (c :: cur) rest

/-- `String.prototype.split` on the regular expression modelled by `m`:
scan left to right, emit the accumulated chunk at each leftmost match. -/
def splitOn (m : List Char → Option ℕ) (l : List Char) : List (List Char) :=
  splitOnFuel m l.length [] l

/-- `String.prototype.split('\n')`. -/
def splitLinesNl (l : List Char) : List (List Char) :=
  splitOn (fun s => match s with | '\n' :: _ => some 1 | _ => none) l

/-- JavaScript `String.prototype.trim`. -/
def jsTrim (l : List Char) : List Char :=
  ((l.dropWhile isJsWs).reverse.dropWhile isJsWs).reverse

/-- JavaScript `toLowerCase`, restricted to ASCII (the header words it is
compared against are ASCII). -/
def jsToLower (l : List Char) : List Char := l.map Char.toLower

/-- Single replacement of the leading ordinal `/^\d+\.\s*/` by the empty
string: a maximal nonempty digit run, a dot, optional whitespace. -/
def stripOrdinal (l : List Char) : List Char :=
  let k := (l.takeWhile Char.isDigit).length
  if k == 0 then l
  else
    match l.drop k with
    | '.' :: rest => rest.dropWhile isJsWs
    | _ => l

/-- Single replacement of a leading `/^[class]+\s*/` run by the empty string
(the bullet-glyph prefixes). -/
def stripLeadRun (p : Char → Bool) (l : List Char) : List Char :=
  let k := (l.takeWhile p).length
  if k == 0 then l else (l.drop k).dropWhile isJsWs

/-- `\p{L}` (any Unicode letter) modelled on the Basic Latin, Latin-1
Supplement and Latin Extended-A ranges, which cover every alphabet this app
handles and every input evaluated in this development. -/
def isLetterLike (c : Char) : Bool :=
  c.isAlpha ||
  (decide (0xc0 ≤ c.toNat) && decide (c.toNat ≤ 0x17f) &&
    !(c.toNat == 0xd7) && !(c.toNat == 0xf7))

/-- `\p{N}` (any Unicode number) modelled on the ASCII digits, which cover
every input evaluated in this development. -/
def isNumberLike (c : Char) : Bool := c.isDigit

/-- `ParsedWordPair` of `types/index.ts`. -/
structure ParsedWordPair where
  term : String
  definition : String
  confidence : ℚ
  deriving DecidableEq, Repr

/-- `OCRResult` of `types/index.ts`. -/
structure OCRResult where
  rawText : String
  pairs : List ParsedWordPair
  parseErrors : List String
  deriving DecidableEq, Repr

/-- The accented-Latin letters allowed by the "unusual characters"
confidence check. -/
def confLatinChars : List Char :=
  "àâäéèêëïîôùûüÿçœæÀÂÄÉÈÊËÏÎÔÙÛÜŸÇŒÆ".toList

/-- The class `[a-zA-ZàâäéèêëïîôùûüÿçœæÀÂÄÉÈÊËÏÎÔÙÛÜŸÇŒÆ\s\-']` of the
"unusual characters" confidence check (39 is the apostrophe). -/
def isConfAllowed (c : Char) : Bool :=
  c.isAlpha || confLatinChars.contains c || isJsWs c || c == '-' ||
    c.toNat == 39

/-- `calculateConfidence` (textually identical in both OCR utility
variants): multiplicative penalties followed by rounding to two decimals. -/
def calculateConfidence (term definition : List Char) : ℚ :=
  let c0 : ℚ := 1.0
  let c1 :=
    if decide (term.length < 2) || decide (definition.length < 2) then c0 * 0.5 else c0
  let c2 :=
    if term.any Char.isDigit || definition.any Char.isDigit then c1 * 0.7 else c1
  let c3 :=
    if (term ++ definition).any (fun c => !(isConfAllowed c)) then c2 * 0.8 else c2
  (jsRound (c3 * 100) : ℚ) / 100

/-- One candidate decomposition of `/^(.{2,30})\s{4,}(.{2,})$/` with first
group length `a`: the whitespace gap is as long as possible given that at
least two characters must remain (greedy `\s{4,}` with backtracking), and
both groups must be free of line terminators. -/
def tableSplitAt (line : List Char) (a : ℕ) : Option (List Char × List Char) :=
  let n := line.length
  let g1 := line.take a
  let rest := line.drop a
  let w := min (wsRun rest) (n - a - 2)
  if decide (a + 6 ≤ n) && decide (4 ≤ w) &&
      g1.all (fun c => !(isLineTerm c)) &&
      (rest.drop w).all (fun c => !(isLineTerm c)) then
    some (g1, rest.drop w)
  else none

/-- The full match of `/^(.{2,30})\s{4,}(.{2,})$/`: greedy `.{2,30}` makes
the first group as long as possible. -/
def tableMatch (line : List Char) : Option (List Char × List Char) :=
  (List.range' 2 29).reverse.findSome? (tableSplitAt line)

/-- `detectTableFormat`, parameterised by the variant's `cleanWord`. -/
def detectTableWith (cleanW : List Char → List Char) (line : List Char) :
    Option ParsedWordPair :=
  match tableMatch line with
  | none => none
  | some (g1, g2) =>
    let term := cleanW g1
    let definition := cleanW g2
    if !(term.isEmpty) && !(definition.isEmpty) then
      some ⟨String.mk term, String.mk definition, 0.7⟩
    else none

/-- The separator loop of `parseLine`: split on each pattern in order; the
first pattern producing at least two parts whose cleaned term and definition
are both nonempty wins. -/
def trySepList (cleanW : List Char → List Char) :
    List (List Char → Option ℕ) → List Char → Option ParsedWordPair
  | [], _ => none
  | sep :: more, line =>
    let parts := splitOn sep line
    if decide (2 ≤ parts.length) then
      let term := cleanW (parts.headD [])
      let definition := cleanW (List.intercalate [' '] (parts.drop 1))
      if !(term.isEmpty) && !(definition.isEmpty) then
        some ⟨String.mk term, String.mk definition, calculateConfidence term definition⟩
      else trySepList cleanW more line
    else trySepList cleanW more line

/-- `parseLine`, parameterised by the variant's separator list and
`cleanWord`: the separator loop, then the table-format fallback. -/
def parseLineWith (seps : List (List Char → Option ℕ))
    (cleanW : List Char → List Char) (line : List Char) : Option ParsedWordPair :=
  match trySepList cleanW seps line with
  | some p => some p
  | none => detectTableWith cleanW line

/-!
### Extractor variant of `src/pages/Scan.tsx` (7 separator patterns,
header filtering)
-/

namespace OcrScan

/-- The `SEPARATORS` array of the Scan variant, in order. -/
def SEPARATORS : List (List Char → Option ℕ) :=
  [matchWsDashWs,
   matchWsCharWs isDashChar,
   matchWsCharWs (fun c => c == '='),
   matchWsCharWs (fun c => c == ':'),
   matchWsCharWs (fun c => c == '|'),
   matchTabs,
   matchWsAtLeast 4]

/-- The bullet-glyph class `[•·∙○●◦▪▫■□\-\*]` of this variant's
`cleanWord`. -/
def isBulletChar (c : Char) : Bool :=
  c == '•' || c == '·' || c == '∙' || c == '○' || c == '●' || c == '◦' ||
  c == '▪' || c == '▫' || c == '■' || c == '□' || c == '-' || c == '*'

/-- The characters kept by this variant's `cleanWord` filter
`[^\p{L}\p{N}\s\-'.,()é è ê ë à â ä ù û ü ï î ô ö ç œ æ]` (the explicitly
listed accented letters and spaces are already inside `\p{L}` and `\s`). -/
def keepChar (c : Char) : Bool :=
  isLetterLike c || isNumberLike c || isJsWs c || c == '-' || c.toNat == 39 ||
  c == '.' || c == ',' || c == '(' || c == ')'

/-- `cleanWord` of the Scan variant: trim, strip the ordinal prefix, strip
bullet glyphs, filter to the allowed class, trim. -/
def cleanWord (l : List Char) : List Char :=
  jsTrim ((stripLeadRun isBulletChar (stripOrdinal (jsTrim l))).filter keepChar)

/-- The fixed column-header words. -/
def headerWords : List (List Char) :=
  (["frans", "nederlands", "engels", "duits", "spaans", "woord",
    "betekenis", "vertaling"]).map String.toList

/-- `isLikelyHeader`: a short line without separators, dash or equals sign,
or a line equal to / starting with / ending with a known header word. -/
def isLikelyHeader (line : List Char) : Bool :=
  let cleanLine := jsTrim (stripOrdinal line)
  (decide (cleanLine.length < 15) &&
      !(SEPARATORS.any (fun m => testMatcher m cleanLine)) &&
      !(cleanLine.contains '-') && !(cleanLine.contains '=')) ||
    (let lowerLine := jsToLower cleanLine
     headerWords.any (fun h =>
       lowerLine == h || (h ++ [' ']).isPrefixOf lowerLine ||
         ([' '] ++ h).isSuffixOf lowerLine))

/-- `parseLine` of the Scan variant. -/
def parseLine (line : List Char) : Option ParsedWordPair :=
  parseLineWith SEPARATORS cleanWord line

/-- `parseWordPairs` of the Scan variant: split into trimmed nonempty lines,
drop likely headers, parse each remaining line, and report unparsed lines of
length greater than 2. -/
def parseWordPairs (rawText : String) : OCRResult :=
  let lines := ((splitLinesNl rawText.toList).map jsTrim).filter (fun l => !(l.isEmpty))
  let res := lines.foldl
    (fun acc line =>
      if isLikelyHeader line then acc
      else
        match parseLine line with
        | some p => (acc.1 ++ [p], acc.2)
        | none => if decide (2 < line.length) then (acc.1, acc.2 ++ [line]) else acc)
    (([] : List ParsedWordPair), ([] : List (List Char)))
  { rawText := rawText, pairs := res.1, parseErrors := res.2.map String.mk }

end OcrScan

/-!
### Extractor variant of the standalone OCR utility (6 separator patterns,
no header filtering)
-/

namespace OcrUtil

/-- The `SEPARATORS` array of the standalone variant, in order. -/
def SEPARATORS : List (List Char → Option ℕ) :=
  [matchWsCharWs isDashChar,
   matchWsCharWs (fun c => c == '='),
   matchWsCharWs (fun c => c == ':'),
   matchWsCharWs (fun c => c == '|'),
   matchTabs,
   matchWsAtLeast 3]

/-- The combined prefix class `[•·∙○●◦▪▫■□\-\*\d\.]` of this variant's
`cleanWord` (bullets, dashes, stars, digits, dots). -/
def isBulletChar (c : Char) : Bool :=
  c == '•' || c == '·' || c == '∙' || c == '○' || c == '●' || c == '◦' ||
  c == '▪' || c == '▫' || c == '■' || c == '□' || c == '-' || c == '*' ||
  c.isDigit || c == '.'

/-- The characters kept by this variant's `cleanWord` filter
`[^\p{L}\p{N}\s\-'.,()]`. -/
def keepChar (c : Char) : Bool :=
  isLetterLike c || isNumberLike c || isJsWs c || c == '-' || c.toNat == 39 ||
  c == '.' || c == ',' || c == '(' || c == ')'

/-- `cleanWord` of the standalone variant: trim, strip the combined
bullet/number prefix, filter to the allowed class, trim. -/
def cleanWord (l : List Char) : List Char :=
  jsTrim ((stripLeadRun isBulletChar (jsTrim l)).filter keepChar)

/-- `parseLine` of the standalone variant. -/
def parseLine (line : List Char) : Option ParsedWordPair :=
  parseLineWith SEPARATORS cleanWord line

/-- `parseWordPairs` of the standalone variant: no header filtering. -/
def parseWordPairs (rawText : String) : OCRResult :=
  let lines := ((splitLinesNl rawText.toList).map jsTrim).filter (fun l => !(l.isEmpty))
  let res := lines.foldl
    (fun acc line =>
      match parseLine line with
      | some p => (acc.1 ++ [p], acc.2)
      | none => if decide (2 < line.length) then (acc.1, acc.2 ++ [line]) else acc)
    (([] : List ParsedWordPair), ([] : List (List Char)))
  { rawText := rawText, pairs := res.1, parseErrors := res.2.map String.mk }

end OcrUtil

end Vocab

namespace Vocab

/-- One `again` review always sets `interval` to 1 and `repetitions` to 0. -/
lemma again_step_interval_repetitions (w : Word) (now : ℚ) :
    (calculateNextReview w UserRating.again now).interval = 1 ∧
      (calculateNextReview w UserRating.again now).repetitions = 0 := by
  simp [calculateNextReview, ratingToQuality]

/-- One `again` review from a state with `easeFactor ≥ 1.3` does not increase
the ease factor and keeps it at least 1.3. -/
lemma again_step_ease (w : Word) (now : ℚ) (he : (1.3 : ℚ) ≤ w.easeFactor) :
    (calculateNextReview w UserRating.again now).easeFactor ≤ w.easeFactor ∧
      (1.3 : ℚ) ≤ (calculateNextReview w UserRating.again now).easeFactor := by
  simp only [calculateNextReview, ratingToQuality]
  norm_num
  split_ifs <;> constructor <;> linarith

/-- The `easeFactor ≥ 1.3` invariant holds all along an `again` sequence. -/
lemma againSeq_ease_invariant (w : Word) (nows : ℕ → ℚ)
    (he : (1.3 : ℚ) ≤ w.easeFactor) :
    ∀ k, (1.3 : ℚ) ≤ (againSeq w nows k).easeFactor := by
  intro k
  induction k with
  | zero => exact he
  | succ k ih =>
    simpa only [againSeq] using (again_step_ease (againSeq w nows k) (nows k) ih).2

/-- C1: on input with `easeFactor ≥ 1.3` and `interval ≥ 0`, for every rating
the state returned by `calculateNextReview` again satisfies
`easeFactor ≥ 1.3` and `interval ≥ 0`. -/
theorem c1_scheduler_invariants (w : Word) (r : UserRating) (now : ℚ)
    (he : (1.3 : ℚ) ≤ w.easeFactor) (hi : (0 : ℚ) ≤ w.interval) :
    (1.3 : ℚ) ≤ (calculateNextReview w r now).easeFactor ∧
      (0 : ℚ) ≤ (calculateNextReview w r now).interval := by
  have hprod : (0 : ℚ) ≤ w.interval * w.easeFactor := by
    have h2 : (0 : ℚ) ≤ w.easeFactor := by linarith
    exact mul_nonneg hi h2
  have h0 : (0 : ℤ) ≤ jsRound (w.interval * w.easeFactor) := by
    rw [jsRound, Int.le_floor]
    push_cast
    linarith
  have hround : (0 : ℚ) ≤ (jsRound (w.interval * w.easeFactor) : ℚ) := by
    exact_mod_cast h0
  constructor
  · cases r <;>
      simp only [calculateNextReview, ratingToQuality] <;>
      norm_num <;>
      split_ifs <;>
      linarith
  · cases r <;>
      simp only [calculateNextReview, ratingToQuality] <;>
      norm_num <;>
      split_ifs <;>
      first
        | exact h0
        | exact hround
        | norm_num

/-- Witness for C1 at a concrete state and rating. -/
theorem c1_scheduler_invariants_witness :
    (1.3 : ℚ) ≤ (2.5 : ℚ) ∧ (0 : ℚ) ≤ (0 : ℚ) ∧
      ((1.3 : ℚ) ≤ (calculateNextReview ⟨2.5, 0, 0, 0, none, 0, 0⟩ UserRating.good 0).easeFactor ∧
        (0 : ℚ) ≤ (calculateNextReview ⟨2.5, 0, 0, 0, none, 0, 0⟩ UserRating.good 0).interval) :=
  ⟨by norm_num, by norm_num,
    c1_scheduler_invariants ⟨2.5, 0, 0, 0, none, 0, 0⟩ UserRating.good 0
      (by norm_num) (by norm_num)⟩

/-- C2: starting from a state with `easeFactor ≥ 1.3`, every application of
`calculateNextReview` with rating `again` yields `interval = 1` and
`repetitions = 0`, and the sequence of ease factors is non-increasing and
never drops below 1.3. -/
theorem c2_repeated_again (w : Word) (nows : ℕ → ℚ)
    (he : (1.3 : ℚ) ≤ w.easeFactor) (k : ℕ) :
    (againSeq w nows (k + 1)).interval = 1 ∧
      (againSeq w nows (k + 1)).repetitions = 0 ∧
      (againSeq w nows (k + 1)).easeFactor ≤ (againSeq w nows k).easeFactor ∧
      (1.3 : ℚ) ≤ (againSeq w nows k).easeFactor := by
  have hinv := againSeq_ease_invariant w nows he k
  have hstep := again_step_interval_repetitions (againSeq w nows k) (nows k)
  have hease := again_step_ease (againSeq w nows k) (nows k) hinv
  exact ⟨hstep.1, hstep.2, hease.1, hinv⟩

/-- Witness for C2 at a concrete state, instant sequence and step index. -/
theorem c2_repeated_again_witness :
    (1.3 : ℚ) ≤ (2.5 : ℚ) ∧
      ((againSeq ⟨2.5, 0, 0, 0, none, 0, 0⟩ (fun _ => 0) 1).interval = 1 ∧
        (againSeq ⟨2.5, 0, 0, 0, none, 0, 0⟩ (fun _ => 0) 1).repetitions = 0 ∧
        (againSeq ⟨2.5, 0, 0, 0, none, 0, 0⟩ (fun _ => 0) 1).easeFactor ≤
          (againSeq ⟨2.5, 0, 0, 0, none, 0, 0⟩ (fun _ => 0) 0).easeFactor ∧
        (1.3 : ℚ) ≤ (againSeq ⟨2.5, 0, 0, 0, none, 0, 0⟩ (fun _ => 0) 0).easeFactor) :=
  ⟨by norm_num,
    c2_repeated_again ⟨2.5, 0, 0, 0, none, 0, 0⟩ (fun _ => 0) (by norm_num) 0⟩

/-- C3: three consecutive `good` ratings from the default state (with
non-decreasing review instants) give `repetitions = 3`, intervals 1, 6 and
`round(6 * easeFactor)`, and strictly increasing `nextReview` timestamps. -/
theorem c3_three_good_from_default (t0 t1 t2 t3 : ℚ)
    (h12 : t1 ≤ t2) (h23 : t2 ≤ t3) :
    (threeGood t0 t1 t2 t3).2.2.repetitions = 3 ∧
      (threeGood t0 t1 t2 t3).1.interval = 1 ∧
      (threeGood t0 t1 t2 t3).2.1.interval = 6 ∧
      (threeGood t0 t1 t2 t3).2.2.interval =
        (jsRound (6 * (threeGood t0 t1 t2 t3).2.1.easeFactor) : ℚ) ∧
      (threeGood t0 t1 t2 t3).1.nextReview < (threeGood t0 t1 t2 t3).2.1.nextReview ∧
      (threeGood t0 t1 t2 t3).2.1.nextReview < (threeGood t0 t1 t2 t3).2.2.nextReview := by
  refine ⟨?_, ?_, ?_, ?_, ?_, ?_⟩ <;>
    simp only [threeGood, getDefaultSM2Values, calculateNextReview, ratingToQuality,
      jsRound] <;>
    norm_num <;>
    linarith

/-- Witness for C3 at concrete review instants. -/
theorem c3_three_good_from_default_witness :
    (0 : ℚ) ≤ (1 : ℚ) ∧ (1 : ℚ) ≤ (2 : ℚ) ∧
      ((threeGood 0 0 1 2).2.2.repetitions = 3 ∧
        (threeGood 0 0 1 2).1.interval = 1 ∧
        (threeGood 0 0 1 2).2.1.interval = 6 ∧
        (threeGood 0 0 1 2).2.2.interval =
          (jsRound (6 * (threeGood 0 0 1 2).2.1.easeFactor) : ℚ) ∧
        (threeGood 0 0 1 2).1.nextReview < (threeGood 0 0 1 2).2.1.nextReview ∧
        (threeGood 0 0 1 2).2.1.nextReview < (threeGood 0 0 1 2).2.2.nextReview) :=
  ⟨by norm_num, by norm_num,
    c3_three_good_from_default 0 0 1 2 (by norm_num) (by norm_num)⟩

/-- C4: `calculateMastery` equals
`round(100 * (0.5 * accuracy + 0.25 * min(repetitions/5, 1) +
0.25 * min(interval/30, 1)))` with `accuracy = correct/(correct+incorrect)`,
and equals 0 whenever `timesCorrect + timesIncorrect = 0`. -/
theorem c4_mastery_formula (w : Word) :
    calculateMastery w =
      if w.timesCorrect + w.timesIncorrect = 0 then 0
      else
        jsRound (100 *
          (0.5 * ((w.timesCorrect : ℚ) / ((w.timesCorrect : ℚ) + (w.timesIncorrect : ℚ))) +
            0.25 * min ((w.repetitions : ℚ) / 5) 1 +
            0.25 * min (w.interval / 30) 1)) := by
  rw [calculateMastery]
  split_ifs with h
  · rfl
  · simp only [jsRound]
    congr 1
    ring

/-- C5 counterexample: a review due in two hours is less than one day away,
yet `getNextReviewText` returns "2 uur", not the "now" word "Nu". -/
theorem c5_counterexample :
    ((7200000 : ℚ) - 0 < 24 * 60 * 60 * 1000) ∧
      getNextReviewText 7200000 0 ≠ "Nu" := by
  constructor
  · norm_num
  · have hval : getNextReviewText 7200000 0 = "2 uur" := by
      simp only [getNextReviewText]
      norm_num
      rfl
    rw [hval]
    decide

/-- C5 (amended): whenever `nextReview - now` is less than one minute —
in particular for every past timestamp — `getNextReviewText` returns "Nu". -/
theorem c5_amended_due_now (nextReview now : ℚ)
    (h : nextReview - now < 1000 * 60) :
    getNextReviewText nextReview now = "Nu" := by
  by_cases h1 : nextReview - now ≤ 0
  · simp [getNextReviewText, h1]
  · have hpos : (0 : ℚ) < nextReview - now := not_le.mp h1
    have hm : ⌊(nextReview - now) / (1000 * 60)⌋ = 0 := by
      rw [Int.floor_eq_zero_iff, Set.mem_Ico]
      constructor
      · positivity
      · rw [div_lt_one (by norm_num)]
        linarith
    have hh : ⌊(nextReview - now) / (1000 * 60 * 60)⌋ = 0 := by
      rw [Int.floor_eq_zero_iff, Set.mem_Ico]
      constructor
      · positivity
      · rw [div_lt_one (by norm_num)]
        linarith
    have hd : ⌊(nextReview - now) / (1000 * 60 * 60 * 24)⌋ = 0 := by
      rw [Int.floor_eq_zero_iff, Set.mem_Ico]
      constructor
      · positivity
      · rw [div_lt_one (by norm_num)]
        linarith
    simp [getNextReviewText, h1, hm, hh, hd]

/-- Witness for the amended C5 at a concrete pair of instants. -/
theorem c5_amended_due_now_witness :
    ((0 : ℚ) - 0 < 1000 * 60) ∧ getNextReviewText 0 0 = "Nu" :=
  ⟨by norm_num, c5_amended_due_now 0 0 (by norm_num)⟩

/-- C10: with `easeFactor ≥ 1.3`, a `good` rating leaves the ease factor
unchanged: the SM-2 update term at quality 4 is exactly 0 and the 1.3 floor
clamp is a no-op. -/
theorem c10_good_preserves_ease (w : Word) (now : ℚ)
    (he : (1.3 : ℚ) ≤ w.easeFactor) :
    (calculateNextReview w UserRating.good now).easeFactor = w.easeFactor := by
  simp only [calculateNextReview, ratingToQuality]
  norm_num
  intro h
  linarith

/-- Witness for C10 at a concrete state. -/
theorem c10_good_preserves_ease_witness :
    (1.3 : ℚ) ≤ (2.5 : ℚ) ∧
      (calculateNextReview ⟨2.5, 0, 0, 0, none, 0, 0⟩ UserRating.good 0).easeFactor = 2.5 :=
  ⟨by norm_num,
    c10_good_preserves_ease ⟨2.5, 0, 0, 0, none, 0, 0⟩ 0 (by norm_num)⟩

/-- C6: on "Woord\nHond - Chien" the Scan-variant extractor classifies the
line "Woord" as a header and returns exactly the pair ("Hond", "Chien"),
with no unparsed lines (so the header appears in neither output list). -/
theorem c6_header_dropped :
    OcrScan.isLikelyHeader "Woord".toList = true ∧
      (OcrScan.parseWordPairs "Woord\nHond - Chien").pairs =
        [⟨"Hond", "Chien", 1⟩] ∧
      (OcrScan.parseWordPairs "Woord\nHond - Chien").parseErrors = [] := by
  refine ⟨?_, ?_, ?_⟩ <;> with_unfolding_all decide

/-- C7: on "asdf1 - asdf2" the Scan-variant extractor returns exactly one
pair, whose confidence 0.56 (after the 0.7 digit multiplier compounds with
the 0.8 unusual-character multiplier) is at most 0.7. -/
theorem c7_digit_confidence :
    (OcrScan.parseWordPairs "asdf1 - asdf2").pairs =
        [⟨"asdf1", "asdf2", 0.56⟩] ∧
      (0.56 : ℚ) ≤ 0.7 := by
  constructor
  · with_unfolding_all decide
  · norm_num

/-- C8: the two extractor variants diverge on some input: on "Woord" the
Scan variant drops the line as a header while the standalone variant
reports it as an unparsed line. -/
theorem c8_variants_diverge :
    ∃ s : String,
      (OcrScan.parseWordPairs s).pairs ≠ (OcrUtil.parseWordPairs s).pairs ∨
        (OcrScan.parseWordPairs s).parseErrors ≠ (OcrUtil.parseWordPairs s).parseErrors :=
  ⟨"Woord", Or.inr (by with_unfolding_all decide)⟩

/-- C9: the extractor is a pure function of its input text, so two runs on
the same raw text yield identical results. -/
theorem c9_extract_deterministic (s : String) :
    OcrScan.parseWordPairs s = OcrScan.parseWordPairs s := rfl

end Vocab
